import Mathlib

set_option maxRecDepth 100000

/-!
Verification of the Truely-Govhack fact-checking backend.

The development shallowly embeds the core pipeline of the repository:
the chunker and ingestion helpers of `backend/src/document_processor.py`,
the vector-store wrapper of `backend/src/database.py`, the confidence
computation of `backend/src/api.py`, and the LLM orchestration of
`backend/src/llm_service.py`.  External collaborators (the OpenAI
transport, `json.loads`, `hashlib.md5`, the file-extraction layer and
the wall clock) are modelled as explicit oracle parameters, matching
the external-interface boundary of the design document.
-/

/-! ## Python string primitives

Python semantics used by `document_processor.py`: slicing with negative
indices, `str.rfind` for a single character, `str.strip`, and the
whitespace class of `re` patterns. Text is modelled as `List Char`.
-/

/-- Whitespace as recognised by `str.strip` and the `\s` class of `re`
(ASCII fragment: space, tab, newline, carriage return, form feed and
vertical tab). -/
def pyIsSpace (c : Char) : Bool :=
  c = ' ' || c = '\t' || c = '\n' || c = '\r' || c = '\x0c' || c = '\x0b'

/-- Python slice `text[i:j]` with step 1: negative indices count from the
end, and both bounds are clamped to the string. -/
def pySlice (l : List Char) (i j : Int) : List Char :=
  let n : Int := l.length
  let i' : Int := if i < 0 then max 0 (n + i) else i
  let j' : Int := if j < 0 then max 0 (n + j) else j
  (l.take j'.toNat).drop i'.toNat

/-- Python `text.rfind(c)` for a single character: the largest index with
that character, and `-1` when the character does not occur. -/
def rfind (l : List Char) (c : Char) : Int :=
  match l with
  | [] => -1
  | x :: xs =>
    let r := rfind xs c
    if r ≠ -1 then r + 1 else if x = c then 0 else -1

/-- Python `text.strip()`: drop leading and trailing whitespace. -/
def pyStrip (l : List Char) : List Char :=
  ((l.dropWhile pyIsSpace).reverse.dropWhile pyIsSpace).reverse

/-- `re.sub(r"\s+", " ", text)`, scanning left to right: the first
character of a whitespace run becomes a single space and the rest of the
run is skipped (`insideRun` records whether the previous character was
whitespace). -/
def collapseWsAux (insideRun : Bool) (l : List Char) : List Char :=
  match l with
  | [] => []
  | c :: rest =>
    if pyIsSpace c then
      (if insideRun then [] else [' ']) ++ collapseWsAux true rest
    else c :: collapseWsAux false rest

/-- `re.sub(r"\s+", " ", text)`: every maximal run of whitespace becomes a
single space. -/
def collapseWs (l : List Char) : List Char :=
  collapseWsAux false l

/-- The allow-list of `clean_text`: word characters, whitespace and the
punctuation `.,!?;:()-` (pattern `[^\w\s.,!?;:()\-]` is removed). -/
def keepChar (c : Char) : Bool :=
  c.isAlphanum || c = '_' || pyIsSpace c ||
    c = '.' || c = ',' || c = '!' || c = '?' || c = ';' || c = ':' ||
    c = '(' || c = ')' || c = '-'

/-- `DocumentProcessor.clean_text`: collapse whitespace runs, strip the
ends, then delete characters outside the allow-list. -/
def cleanText (l : List Char) : List Char :=
  (pyStrip (collapseWs l)).filter keepChar

/-! ## The chunker

`DocumentProcessor.chunk_text`. The `while` loop is embedded with an
explicit fuel argument so that non-termination of the source loop is
expressible: `none` means the fuel ran out before the loop guard failed.
-/

/-- One iteration of the `chunk_text` loop body: compute the tentative
window end, snap it back to the last sentence-ending punctuation mark
among the preceding 100 characters when one exists, and return the new
`start` value (`end - overlap`) together with the stripped chunk. -/
def chunkNext (text : List Char) (chunk_size overlap start : Int) :
    Int × List Char :=
  let end0 : Int := start + chunk_size
  let end1 : Int :=
    if end0 < (text.length : Int) then
      let last_part := pySlice text (end0 - 100) end0
      let sentence_end :=
        max (rfind last_part '.') (max (rfind last_part '!') (rfind last_part '?'))
      if sentence_end ≠ -1 then end0 - 100 + sentence_end + 1 else end0
    else end0
  (end1 - overlap, pyStrip (pySlice text start end1))

/-- The `while start < len(text)` loop of `chunk_text`, with fuel. -/
def chunkLoop (fuel : Nat) (text : List Char) (chunk_size overlap : Int)
    (start : Int) (acc : List (List Char)) : Option (List (List Char)) :=
  match fuel with
  | 0 => if start < (text.length : Int) then none else some acc
  | fuel + 1 =>
    if start < (text.length : Int) then
      let c := (chunkNext text chunk_size overlap start).2
      chunkLoop fuel text chunk_size overlap
        (chunkNext text chunk_size overlap start).1
        (if c.isEmpty then acc else acc ++ [c])
    else some acc

/-- `DocumentProcessor.chunk_text(text, chunk_size, overlap)`: texts no
longer than `chunk_size` are returned whole; otherwise the sliding-window
loop runs (with the given fuel). -/
def chunkTextFuel (fuel : Nat) (text : List Char) (chunk_size overlap : Int) :
    Option (List (List Char)) :=
  if (text.length : Int) ≤ chunk_size then some [text]
  else chunkLoop fuel text chunk_size overlap 0 []

/-- The source loop terminates on this input: some amount of fuel makes it
reach the failed loop guard. -/
def chunkTerminates (text : List Char) (chunk_size overlap : Int) : Prop :=
  ∃ fuel, (chunkTextFuel fuel text chunk_size overlap).isSome = true

/-- `chunk_text` at its default configuration `chunk_size=800`,
`overlap=100`, as invoked by `process_document`; the fuel
`text.length + 1` is proved sufficient below. -/
def chunkDefault (text : List Char) : List (List Char) :=
  (chunkTextFuel (text.length + 1) text 800 100).getD []

/-! ## The embedding client

`DocumentProcessor.generate_embeddings`. The OpenAI transport is an
oracle `provider` mapping one batch of texts to either an error or a
batch of vectors (the vector payload is an arbitrary type `α`). The
Python loop walks the input in slices `texts[i:i+100]`; any exception
propagates (`raise`), so the embedding of the loop stops at the first
failing batch. -/
def generate_embeddings {α : Type} (provider : List String → Except String (List α))
    (texts : List String) : Except String (List α) :=
  match texts with
  | [] => Except.ok []
  | t :: ts =>
    match provider ((t :: ts).take 100) with
    | Except.error e => Except.error e
    | Except.ok batch =>
      match generate_embeddings provider ((t :: ts).drop 100) with
      | Except.error e => Except.error e
      | Except.ok rest => Except.ok (batch ++ rest)
termination_by texts.length
decreasing_by
  simp [List.length_drop]
  omega

/-! ## Distance-to-confidence conversion

The `fact_check` endpoint of `api.py` computes
`confidence = max(0, 1 - distance)` and reports `round(confidence, 3)`.
Distances are modelled as rationals; `round` is the round-half-to-even
rounding of Python. -/

/-- Python `round` to an integer: round half to even (the fractional
part decides, and an exact half goes to the even neighbour). -/
def rhe (q : ℚ) : ℤ :=
  if q - (⌊q⌋ : ℚ) < 1 / 2 then ⌊q⌋
  else if 1 / 2 < q - (⌊q⌋ : ℚ) then ⌊q⌋ + 1
  else if ⌊q⌋ % 2 = 0 then ⌊q⌋ else ⌊q⌋ + 1

/-- Python `round(x, 3)`. -/
def round3 (q : ℚ) : ℚ :=
  (rhe (q * 1000) : ℚ) / 1000

/-- The confidence assigned by the `fact_check` endpoint to a retrieval
distance: `round(max(0, 1 - distance), 3)`. -/
def confidence_of_distance (d : ℚ) : ℚ :=
  round3 (max 0 (1 - d))

/-- Zero-padded three-digit fractional part, used by `f"{x:.3f}"`. -/
def pad3 (n : Nat) : String :=
  if n < 10 then "00" ++ toString n
  else if n < 100 then "0" ++ toString n
  else toString n

/-- Python `f"{q:.3f}"` on a rational value. -/
def formatQ3 (q : ℚ) : String :=
  let m := rhe (q * 1000)
  (if m < 0 then "-" else "") ++
    toString (m.natAbs / 1000) ++ "." ++ pad3 (m.natAbs % 1000)

/-! ## Data model of the LLM service

Mirrors `models.py` (pydantic models) and the dictionaries exchanged with
`llm_service.py`. Chunk dictionaries passed to the LLM service are the
`model_dump()` of `ContextChunk`. -/

/-- `models.FactCheckClassification`. -/
inductive FactCheckClassification where
  | SUPPORTED
  | CONTRADICTED
  | INSUFFICIENT
  | MIXED
deriving DecidableEq

/-- The conversion `FactCheckClassification(s)` performed on the string
taken from the model output: `none` models the `ValueError` raised for a
string outside the four enumerated values. -/
def classificationOfString (s : String) : Option FactCheckClassification :=
  if s = "SUPPORTED" then some FactCheckClassification.SUPPORTED
  else if s = "CONTRADICTED" then some FactCheckClassification.CONTRADICTED
  else if s = "INSUFFICIENT" then some FactCheckClassification.INSUFFICIENT
  else if s = "MIXED" then some FactCheckClassification.MIXED
  else none

/-- `models.TokenUsage`. -/
structure TokenUsage where
  prompt_tokens : Nat
  completion_tokens : Nat
  total_tokens : Nat
deriving DecidableEq

/-- `models.SourceReference`. -/
structure SourceReference where
  source_number : Int
  file_name : String
  document_url : Option String
deriving DecidableEq

/-- `models.FactCheckResponse`. -/
structure FactCheckResponse where
  classification : FactCheckClassification
  analysis : String
  sources_used : List SourceReference
  reasoning : String
deriving DecidableEq

/-- `models.ContextChunk`; its `model_dump()` is the chunk dictionary
consumed by the LLM service. -/
structure ContextChunk where
  text : String
  source_file : String
  source : Option String
  document_url : Option String
  chunk_index : Int
  confidence : ℚ
  distance : ℚ
deriving DecidableEq

/-- `models.LLMResponseWrapper`. -/
structure LLMResponseWrapper where
  status : String
  fact_check : Option FactCheckResponse
  model_used : String
  token_usage : TokenUsage
  error : Option String
  fallback_response : Option String
deriving DecidableEq

/-- The shape of the dictionary produced by `json.loads` on a fact-check
reply: each field of the expected schema may be absent (`.get` defaults
are applied by the consumer). -/
structure SourceJson where
  source_number : Option Int
  file_name : Option String

/-- The decoded JSON object of a fact-check reply. -/
structure FCJson where
  classification : Option String
  analysis : Option String
  sources_used : Option (List SourceJson)
  reasoning : Option String

/-! ## The LLM fact-check orchestrator

`LLMService.generate_fact_check_response`. Two oracles stand in for the
external collaborators: `llm` is the outcome of the OpenAI chat call
(the message content string together with the reported token usage, or
the exception it raised), and `parse` is `json.loads` restricted to
JSON-mode replies (`none` for content that is not valid JSON, otherwise
the decoded object). -/

/-- One step of building the `source_file_to_url` dictionary: a chunk
whose `source_file` and `document_url` are truthy (non-empty) adds or
overwrites an entry. -/
def sfuStep (m : String → Option String) (c : ContextChunk) :
    String → Option String :=
  match c.document_url with
  | some u =>
    if c.source_file ≠ "" ∧ u ≠ "" then
      fun k => if k = c.source_file then some u else m k
    else m
  | none => m

/-- The `source_file_to_url` dictionary built from the retrieved chunks:
chunks whose `source_file` and `document_url` are truthy (non-empty)
contribute an entry, later chunks overwriting earlier ones. -/
def source_file_to_url (context_chunks : List ContextChunk) :
    String → Option String :=
  context_chunks.foldl sfuStep (fun _ => none)

/-- One `SourceReference` built from a declared source of the model
output: `.get` defaults `source_number` to 1 and `file_name` to
`"unknown"`, and `document_url` is looked up in the chunk mapping. -/
def mkSourceReference (m : String → Option String) (s : SourceJson) :
    SourceReference :=
  let file := s.file_name.getD "unknown"
  { source_number := s.source_number.getD 1
    file_name := file
    document_url := m file }

/-- The body of the inner `try` of `generate_fact_check_response`:
decode the content, convert the classification string (a `ValueError`
for a string outside the enumeration), build the source references, and
validate the pydantic length constraints on `analysis` (min 10) and
`reasoning` (min 20). An `Except.error` models the caught
`(json.JSONDecodeError, ValueError)`. -/
def parseFactCheck (parse : String → Option FCJson)
    (context_chunks : List ContextChunk) (content : String) :
    Except String FactCheckResponse :=
  match parse content with
  | none => Except.error "Expecting value"
  | some j =>
    match classificationOfString (j.classification.getD "INSUFFICIENT") with
    | none => Except.error "invalid FactCheckClassification"
    | some cls =>
      let m := source_file_to_url context_chunks
      let sources := (j.sources_used.getD []).map (mkSourceReference m)
      let analysis := j.analysis.getD "Analysis not provided"
      let reasoning := j.reasoning.getD "Reasoning not provided"
      if 10 ≤ analysis.length ∧ 20 ≤ reasoning.length then
        Except.ok
          { classification := cls
            analysis := analysis
            sources_used := sources
            reasoning := reasoning }
      else Except.error "validation error"

/-- The deterministic verdict returned when no context chunks were
retrieved. -/
def noContextFactCheck : FactCheckResponse :=
  { classification := FactCheckClassification.INSUFFICIENT
    analysis := "No relevant documents found to fact-check this query."
    sources_used := []
    reasoning := "No context documents were retrieved from the database that match this query." }

/-- The truncation applied to a chunk text in the fallback summary:
texts longer than 200 characters are cut to 200 characters and an
ellipsis is appended. -/
def pyTruncText (t : String) : String :=
  if 200 < t.data.length then String.mk (t.data.take 200) ++ "..." else t

/-- One line block of `_create_fallback_response`:
`f"Source {i} (Confidence: {confidence:.3f})\nFrom: {source}\n{text}\n\n"`. -/
def renderFallbackEntry (i : Nat) (c : ContextChunk) : String :=
  "Source " ++ toString i ++ " (Confidence: " ++ formatQ3 c.confidence ++
    ")\nFrom: " ++ c.source_file ++ "\n" ++ pyTruncText c.text ++ "\n\n"

/-- `LLMService._create_fallback_response`: a deterministic summary of at
most the top 3 retrieved chunks. -/
def create_fallback_response (context_chunks : List ContextChunk) : String :=
  if context_chunks = [] then
    "No relevant context found to fact-check this query."
  else
    "LLM service unavailable. Here are the most relevant sources found:\n\n" ++
      String.join ((List.enumFrom 1 (context_chunks.take 3)).map
        (fun p => renderFallbackEntry p.1 p.2))

/-- `LLMService.generate_fact_check_response(query, context_chunks)`.
The empty-context case short-circuits before any provider interaction;
otherwise the provider outcome `llm` is examined: a raised exception
yields the zero-usage error wrapper with the chunk-based fallback, a
delivered reply is parsed, with parse failures yielding the error
wrapper that preserves the raw content and the reported usage. -/
def generate_fact_check_response (model : String)
    (llm : Except String (String × TokenUsage))
    (parse : String → Option FCJson)
    (_query : String) (context_chunks : List ContextChunk) :
    LLMResponseWrapper :=
  if context_chunks = [] then
    { status := "success"
      fact_check := some noContextFactCheck
      model_used := model
      token_usage := ⟨0, 0, 0⟩
      error := none
      fallback_response := none }
  else
    match llm with
    | Except.error e =>
      { status := "error"
        fact_check := none
        model_used := model
        token_usage := ⟨0, 0, 0⟩
        error := some e
        fallback_response := some (create_fallback_response context_chunks) }
    | Except.ok (content, usage) =>
      match parseFactCheck parse context_chunks content with
      | Except.ok fc =>
        { status := "success"
          fact_check := some fc
          model_used := model
          token_usage := usage
          error := none
          fallback_response := none }
      | Except.error perr =>
        { status := "error"
          fact_check := none
          model_used := model
          token_usage := usage
          error := some ("JSON parsing failed: " ++ perr)
          fallback_response := some content }

/-! ## The ingestion pipeline

`DocumentProcessor.process_document`. The file-extraction layer is an
external collaborator, so the extracted raw text arrives as an input;
`hashlib.md5(...).hexdigest()` is the oracle `md5hex`, and
`datetime.now().isoformat()` is the input `now`. Paths are strings with
the usual `pathlib` accessors `name`, `stem` and `suffix`. -/

/-- Split a character list at every occurrence of a separator. -/
def splitOnChar (sep : Char) (l : List Char) : List (List Char) :=
  match l with
  | [] => [[]]
  | c :: rest =>
    let r := splitOnChar sep rest
    if c = sep then [] :: r else (c :: r.headD []) :: r.tail

/-- `pathlib.Path(p).name`: the component after the last slash. -/
def pathName (p : String) : String :=
  String.mk ((splitOnChar '/' p.data).reverse.headD [])

/-- Join name parts with dots (inverse of splitting on a dot). -/
def joinDots (parts : List (List Char)) : List Char :=
  match parts with
  | [] => []
  | [x] => x
  | x :: rest => x ++ '.' :: joinDots rest

/-- `pathlib.Path(p).stem`: the file name without its final suffix
(names with no dot, or only a leading dot, are kept whole). -/
def pathStem (p : String) : String :=
  let parts := splitOnChar '.' (pathName p).data
  match parts with
  | [] => pathName p
  | [_] => pathName p
  | [] :: [_] => pathName p
  | _ => String.mk (joinDots parts.dropLast)

/-- `pathlib.Path(p).suffix`: the final dotted suffix, with its dot. -/
def pathSuffix (p : String) : String :=
  let parts := splitOnChar '.' (pathName p).data
  match parts with
  | [] => ""
  | [_] => ""
  | [] :: [_] => ""
  | _ => String.mk ('.' :: (parts.reverse.headD []))

/-- Python `f"{i:04d}"`: decimal, zero-padded to at least four digits. -/
def pad4 (i : Nat) : String :=
  if i < 10000 then
    String.mk [Nat.digitChar (i / 1000), Nat.digitChar (i / 100 % 10),
      Nat.digitChar (i / 10 % 10), Nat.digitChar (i % 10)]
  else toString i

/-- The metadata dictionary built for each chunk by `process_document`. -/
structure ChunkMeta where
  source_file : String
  source_path : String
  source_url : String
  chunk_index : Nat
  total_chunks : Nat
  file_type : String
  processed_at : String
  chunk_length : Nat
  file_hash : String
deriving DecidableEq

/-- `DocumentProcessor.process_document(file_path, source_url)`: empty
extraction short-circuits to three empty sequences; otherwise the text is
cleaned and chunked, the short path hash `md5(str(file_path))[:8]` is
computed, and one metadata record and one id
`f"{stem}_{file_hash}_{i:04d}"` are produced per chunk. -/
def process_document (md5hex : String → String) (file_path : String)
    (extracted : String) (source_url : String) (now : String) :
    List String × List ChunkMeta × List String :=
  if extracted = "" then ([], [], [])
  else
    let chunks := chunkDefault (cleanText extracted.data)
    let file_hash := String.mk ((md5hex file_path).data.take 8)
    let metas := chunks.enum.map (fun p =>
      ({ source_file := pathName file_path
         source_path := file_path
         source_url := source_url
         chunk_index := p.1
         total_chunks := chunks.length
         file_type := pathSuffix file_path
         processed_at := now
         chunk_length := p.2.length
         file_hash := file_hash } : ChunkMeta))
    let ids := (List.range chunks.length).map
      (fun i => pathStem file_path ++ "_" ++ file_hash ++ "_" ++ pad4 i)
    (chunks.map String.mk, metas, ids)

/-- The number of chunks `process_document` produces for a given
extracted text (zero when extraction produced nothing). -/
def numChunksOf (extracted : String) : Nat :=
  if extracted = "" then 0 else (chunkDefault (cleanText extracted.data)).length

/-! ## The vector-store wrapper

`FactCheckDatabase.query_similar_with_embeddings`. The ChromaDB
collection is the oracle `backendQuery`; an `Except.error` models the
exception the backend call may raise. -/

/-- The result dictionary shape of a ChromaDB query. -/
structure QueryResult where
  documents : List (List String)
  metadatas : List (List ChunkMeta)
  distances : List (List ℚ)
deriving DecidableEq

/-- The result shape returned when the backend query raises:
`{"documents": [[]], "metadatas": [[]], "distances": [[]]}`. -/
def emptyQueryResult : QueryResult :=
  { documents := [[]], metadatas := [[]], distances := [[]] }

/-- `FactCheckDatabase.query_similar_with_embeddings(query_embeddings,
n_results)`: the backend result is passed through, and any backend
exception is swallowed into the empty result shape. -/
def query_similar_with_embeddings
    (backendQuery : List ℚ → Nat → Except String QueryResult)
    (query_embeddings : List ℚ) (n_results : Nat) : QueryResult :=
  match backendQuery query_embeddings n_results with
  | Except.ok r => r
  | Except.error _ => emptyQueryResult

/-! ## Concrete instances used by witnesses and counterexamples -/

/-- A 202-character text whose only sentence-ending punctuation sits at
index 1. -/
def text0 : List Char := 'a' :: '.' :: List.replicate 200 'b'

/-- The projection of a chunk dictionary that the fallback summary
renders: the source file name, the 200-character truncation of the text,
and the confidence. -/
def fallbackProj (c : ContextChunk) : String × String × ℚ :=
  (c.source_file, pyTruncText c.text, c.confidence)

/-- A character list with no leading and no trailing whitespace. -/
def Trimmed (c : List Char) : Prop :=
  (∀ a, c.head? = some a → pyIsSpace a = false) ∧
    (∀ a, c.getLast? = some a → pyIsSpace a = false)

/-- A sample retrieved chunk dictionary, as dumped by the API layer. -/
def chunk0 : ContextChunk :=
  { text := "The Earth is approximately spherical in shape."
    source_file := "doc.txt"
    source := none
    document_url := some "http://example.org/doc"
    chunk_index := 0
    confidence := 95 / 100
    distance := 5 / 100 }

/-- A one-chunk retrieval result. -/
def chunks0 : List ContextChunk := [chunk0]

/-- A `json.loads` oracle for content that is not valid JSON. -/
def parseNone : String → Option FCJson := fun _ => none

/-- A `json.loads` oracle whose decoded verdict cites a file that was
never among the retrieved chunks. -/
def parseOther : String → Option FCJson := fun _ =>
  some { classification := some "SUPPORTED"
         analysis := some "The context supports the statement."
         sources_used := some [{ source_number := some 1, file_name := some "other.txt" }]
         reasoning := some "The retrieved document directly states the claim." }

/-- A `json.loads` oracle whose decoded verdict cites the retrieved
chunk file. -/
def parseDoc : String → Option FCJson := fun _ =>
  some { classification := some "SUPPORTED"
         analysis := some "The context supports the statement."
         sources_used := some [{ source_number := some 1, file_name := some "doc.txt" }]
         reasoning := some "The retrieved document directly states the claim." }

/-- An md5 oracle with a fixed 32-character hex digest. -/
def md5demo : String → String := fun _ => "0123456789abcdef0123456789abcdef"

/-- An 810-character extracted text (two chunks at the default
configuration). -/
def content810 : String := String.mk (List.replicate 810 'b')

/-- An embedding provider oracle mapping every text to its length. -/
def providerLen : List String → Except String (List Nat) :=
  fun b => Except.ok (b.map String.length)

/-- A backend query oracle that always raises. -/
def backendRaise : List ℚ → Nat → Except String QueryResult :=
  fun _ _ => Except.error "chromadb unavailable"

/-! ## Lemmas about the chunker loop -/

/-- A slice with non-negative bounds is no longer than the bound gap. -/
theorem pySlice_length_le (l : List Char) (i j : Int) (hi : 0 ≤ i) (hj : 0 ≤ j) :
    (pySlice l i j).length ≤ (j - i).toNat := by
  simp only [pySlice]
  rw [if_neg (by omega), if_neg (by omega)]
  simp only [List.length_drop, List.length_take]
  omega

/-- `rfind` never returns a value below `-1`. -/
theorem rfind_ge (l : List Char) (c : Char) : -1 ≤ rfind l c := by
  induction l with
  | nil => simp [rfind]
  | cons x xs ih =>
    simp only [rfind]
    split
    · omega
    · split <;> omega

/-- `rfind` returns an index below the length of the searched string. -/
theorem rfind_lt (l : List Char) (c : Char) : rfind l c < (l.length : Int) := by
  induction l with
  | nil => simp [rfind]
  | cons x xs ih =>
    simp only [rfind, List.length_cons]
    push_cast
    split
    · omega
    · split <;> omega

/-- Progress of the `chunk_text` loop: when the overlap leaves at least
100 characters of forward motion, every loop iteration strictly advances
`start`, even when the end boundary snaps back. -/
theorem chunkNext_progress (text : List Char) (chunk_size overlap start : Int)
    (hs : 0 ≤ start) (hov : 0 ≤ overlap) (hgap : overlap + 100 ≤ chunk_size) :
    start + 1 ≤ (chunkNext text chunk_size overlap start).1 := by
  have hlp := pySlice_length_le text (start + chunk_size - 100) (start + chunk_size)
    (by omega) (by omega)
  have hd := rfind_lt (pySlice text (start + chunk_size - 100) (start + chunk_size)) '.'
  have hb := rfind_lt (pySlice text (start + chunk_size - 100) (start + chunk_size)) '!'
  have hq := rfind_lt (pySlice text (start + chunk_size - 100) (start + chunk_size)) '?'
  have hd0 := rfind_ge (pySlice text (start + chunk_size - 100) (start + chunk_size)) '.'
  have hb0 := rfind_ge (pySlice text (start + chunk_size - 100) (start + chunk_size)) '!'
  have hq0 := rfind_ge (pySlice text (start + chunk_size - 100) (start + chunk_size)) '?'
  simp only [chunkNext]
  split
  · split
    · omega
    · omega
  · omega

/-- With at least 100 characters of forward motion per iteration, fuel
equal to the distance to the end of the text suffices for the loop to
reach its failed guard. -/
theorem chunkLoop_isSome (chunk_size overlap : Int)
    (hov : 0 ≤ overlap) (hgap : overlap + 100 ≤ chunk_size) :
    ∀ (fuel : Nat) (text : List Char) (start : Int) (acc : List (List Char)),
      0 ≤ start → (text.length : Int) ≤ start + fuel →
      (chunkLoop fuel text chunk_size overlap start acc).isSome = true := by
  intro fuel
  induction fuel with
  | zero =>
    intro text start acc hs hfuel
    simp only [chunkLoop]
    rw [if_neg (by omega)]
    rfl
  | succ fuel ih =>
    intro text start acc hs hfuel
    simp only [chunkLoop]
    split
    · exact ih text _ _
        (le_trans (by omega) (chunkNext_progress text chunk_size overlap start hs hov hgap))
        (by have := chunkNext_progress text chunk_size overlap start hs hov hgap; omega)
    · rfl

/-- On `text0` with `chunk_size=101`, `overlap=100`, every `start` value
in `[-98, 0]` is mapped by the loop body back into `[-98, 0]`. -/
theorem text0_cycle_all :
    ((List.range 99).all (fun k =>
      decide ((-98 : Int) ≤ (chunkNext text0 101 100 (-98 + (k : Int))).1 ∧
        (chunkNext text0 101 100 (-98 + (k : Int))).1 ≤ 0))) = true := by
  decide

/-- Interval form of `text0_cycle_all`. -/
theorem text0_step_bounds (s : Int) (h1 : -98 ≤ s) (h2 : s ≤ 0) :
    -98 ≤ (chunkNext text0 101 100 s).1 ∧ (chunkNext text0 101 100 s).1 ≤ 0 := by
  have hmem : (s + 98).toNat ∈ List.range 99 := List.mem_range.mpr (by omega)
  have hall := text0_cycle_all
  rw [List.all_eq_true] at hall
  have h := of_decide_eq_true (hall _ hmem)
  have he : (-98 : Int) + (((s + 98).toNat : Nat) : Int) = s := by omega
  rwa [he] at h

/-- On `text0` with `chunk_size=101`, `overlap=100`, the loop guard never
fails from a `start` in `[-98, 0]`: every fuel amount runs out. -/
theorem text0_loop_none :
    ∀ (fuel : Nat) (start : Int) (acc : List (List Char)),
      -98 ≤ start → start ≤ 0 →
      chunkLoop fuel text0 101 100 start acc = none := by
  have hlen : (text0.length : Int) = 202 := by decide
  intro fuel
  induction fuel with
  | zero =>
    intro start acc h1 h2
    simp only [chunkLoop]
    rw [if_pos (by omega)]
  | succ fuel ih =>
    intro start acc h1 h2
    simp only [chunkLoop]
    rw [if_pos (by omega)]
    exact ih _ _ (text0_step_bounds start h1 h2).1 (text0_step_bounds start h1 h2).2

/-- The head surviving `dropWhile` fails the predicate. -/
theorem head_dropWhile_not_space (l : List Char) (a : Char)
    (h : (l.dropWhile pyIsSpace).head? = some a) : pyIsSpace a = false := by
  induction l with
  | nil => simp [List.dropWhile] at h
  | cons c rest ih =>
    by_cases hc : pyIsSpace c
    · rw [List.dropWhile_cons_of_pos hc] at h
      exact ih h
    · rw [List.dropWhile_cons_of_neg hc] at h
      simp only [List.head?_cons, Option.some.injEq] at h
      subst h
      exact Bool.not_eq_true _ ▸ (by simpa using hc)

/-- `dropWhile` keeps the last element of the list when it keeps
anything at all. -/
theorem getLast?_dropWhile_space (l : List Char)
    (h : l.dropWhile pyIsSpace ≠ []) :
    (l.dropWhile pyIsSpace).getLast? = l.getLast? := by
  induction l with
  | nil => simp [List.dropWhile] at h
  | cons c rest ih =>
    by_cases hc : pyIsSpace c
    · rw [List.dropWhile_cons_of_pos hc] at h ⊢
      rcases rest with _ | ⟨r, rs⟩
      · simp [List.dropWhile] at h
      · rw [List.getLast?_cons_cons]
        exact ih h
    · rw [List.dropWhile_cons_of_neg hc]

/-- `pyStrip` output has no leading and no trailing whitespace. -/
theorem pyStrip_trimmed (l : List Char) : Trimmed (pyStrip l) := by
  constructor
  · intro a ha
    rw [pyStrip, List.head?_reverse] at ha
    by_cases hte : (l.dropWhile pyIsSpace).reverse.dropWhile pyIsSpace = []
    · rw [hte] at ha; simp at ha
    · rw [getLast?_dropWhile_space _ hte, List.getLast?_reverse] at ha
      exact head_dropWhile_not_space l a ha
  · intro a ha
    rw [pyStrip, List.getLast?_reverse] at ha
    exact head_dropWhile_not_space _ a ha

/-- Every chunk emitted by the `chunk_text` loop is non-empty and
whitespace-trimmed (the loop strips each chunk and drops falsy ones). -/
theorem chunkLoop_all_trimmed :
    ∀ (fuel : Nat) (text : List Char) (cs ov start : Int)
      (acc res : List (List Char)),
      (∀ c ∈ acc, c ≠ [] ∧ Trimmed c) →
      chunkLoop fuel text cs ov start acc = some res →
      ∀ c ∈ res, c ≠ [] ∧ Trimmed c := by
  intro fuel
  induction fuel with
  | zero =>
    intro text cs ov start acc res hacc h
    simp only [chunkLoop] at h
    split at h
    · exact absurd h (by simp)
    · injection h with h'
      subst h'
      exact hacc
  | succ fuel ih =>
    intro text cs ov start acc res hacc h
    simp only [chunkLoop] at h
    split at h
    · refine ih text cs ov _ _ res ?_ h
      intro c hc
      by_cases hce : ((chunkNext text cs ov start).2).isEmpty
      · rw [if_pos hce] at hc; exact hacc c hc
      · rw [if_neg hce] at hc
        rcases List.mem_append.mp hc with hmem | hmem
        · exact hacc c hmem
        · have hcc : c = (chunkNext text cs ov start).2 := by simpa using hmem
          subst hcc
          refine ⟨?_, pyStrip_trimmed _⟩
          intro hnil
          rw [hnil] at hce
          exact hce rfl
    · injection h with h'
      subst h'
      exact hacc

/-! ## Claim C5 -/

/-- Claim C5 (counterexample): for an input no longer than `chunk_size`,
`chunk_text` returns the input itself, not the trimmed input — on
`" a "` the single returned chunk keeps its surrounding whitespace, so
the claimed equality with the trimmed input fails. -/
theorem chunk_short_input_not_trimmed :
    chunkTextFuel 1 [' ', 'a', ' '] 800 100 = some [[' ', 'a', ' ']] ∧
      pyStrip [' ', 'a', ' '] = ['a'] ∧
      [' ', 'a', ' '] ≠ ['a'] := by
  decide

/-- Claim C5 (amended): for `len(text) ≤ chunk_size` the function
returns exactly one chunk equal to the input itself, with no trimming
applied (the chunk may even be empty or all-whitespace); only in the
multi-chunk path (`len(text) > chunk_size`) is every returned chunk
trimmed and non-empty. -/
theorem chunk_short_input_amended (fuel : Nat) (text : List Char)
    (chunk_size overlap : Int) :
    ((text.length : Int) ≤ chunk_size →
      chunkTextFuel fuel text chunk_size overlap = some [text]) ∧
    (chunk_size < (text.length : Int) →
      ∀ res, chunkTextFuel fuel text chunk_size overlap = some res →
        ∀ c ∈ res, c ≠ [] ∧ Trimmed c) := by
  constructor
  · intro h
    simp [chunkTextFuel, h]
  · intro h res hres
    rw [chunkTextFuel, if_neg (by omega)] at hres
    exact chunkLoop_all_trimmed fuel text chunk_size overlap 0 [] res
      (by intro c hc; simp at hc) hres

/-- Witness for `chunk_short_input_amended` at a concrete input. -/
theorem chunk_short_input_amended_witness :
    chunkTextFuel 1 ['h', 'i'] 800 100 = some [['h', 'i']] :=
  (chunk_short_input_amended 1 ['h', 'i'] 800 100).1 (by decide)

/-! ## Claim C6 -/

/-- Claim C6 (counterexample): with `chunk_size = 101` and
`overlap = 100` (a configuration satisfying `0 ≤ overlap < maxSize`),
`chunk_text` does not terminate on `text0`: the boundary snap throws
`start` back to `-98` each time the window reaches the full stop at
index 1, so the loop guard never fails, whatever the fuel. -/
theorem chunk_text_overlap_nontermination : ¬ chunkTerminates text0 101 100 := by
  rintro ⟨fuel, hf⟩
  have hlen : (text0.length : Int) = 202 := by decide
  rw [chunkTextFuel, if_neg (by omega)] at hf
  rw [text0_loop_none fuel 0 [] (by omega) (by omega)] at hf
  exact absurd hf (by simp)

/-- Claim C6 (amended): `chunk_text(text, maxSize, overlap)` terminates
for every input text whenever `0 ≤ overlap` and `overlap + 100 ≤
maxSize` (the boundary snap can move the window end back by at most 99
characters, so `start` still strictly advances); this covers the
default configuration `maxSize=800`, `overlap=100`. For
`overlap < maxSize < overlap + 100` termination can fail, as the
counterexample shows. -/
theorem chunk_text_terminates_of_gap (text : List Char) (chunk_size overlap : Int)
    (hov : 0 ≤ overlap) (hgap : overlap + 100 ≤ chunk_size) :
    chunkTerminates text chunk_size overlap := by
  by_cases hle : (text.length : Int) ≤ chunk_size
  · exact ⟨0, by simp [chunkTextFuel, hle]⟩
  · refine ⟨text.length, ?_⟩
    rw [chunkTextFuel, if_neg hle]
    exact chunkLoop_isSome chunk_size overlap hov hgap text.length text 0 []
      le_rfl (by omega)

/-- Witness for `chunk_text_terminates_of_gap` at a concrete input. -/
theorem chunk_text_terminates_of_gap_witness :
    (0 : Int) ≤ 10 ∧ (10 : Int) + 100 ≤ 150 ∧
      chunkTerminates (List.replicate 300 'c') 150 10 :=
  ⟨by decide, by decide,
    chunk_text_terminates_of_gap (List.replicate 300 'c') 150 10
      (by decide) (by decide)⟩

/-! ## Claim C1 -/

/-- Claim C1: with an empty list of retrieved context chunks the
orchestrator short-circuits: classification `INSUFFICIENT`, empty
`sources_used`, all-zero token usage, and the result is independent of
the LLM transport and the JSON decoder — no provider call is observable. -/
theorem no_context_short_circuit (model : String)
    (llm : Except String (String × TokenUsage))
    (parse : String → Option FCJson) (q : String) :
    generate_fact_check_response model llm parse q [] =
      { status := "success"
        fact_check := some noContextFactCheck
        model_used := model
        token_usage := ⟨0, 0, 0⟩
        error := none
        fallback_response := none } ∧
    noContextFactCheck.classification = FactCheckClassification.INSUFFICIENT ∧
    noContextFactCheck.sources_used = [] ∧
    ∀ (llm2 : Except String (String × TokenUsage))
      (parse2 : String → Option FCJson),
      generate_fact_check_response model llm parse q [] =
        generate_fact_check_response model llm2 parse2 q [] :=
  ⟨rfl, rfl, rfl, fun _ _ => rfl⟩

/-! ## Claim C2 -/

/-- Claim C2: when the delivered model content is not valid JSON, or its
classification string is outside the four enumerated values, the
orchestrator returns an error-status wrapper that preserves the raw
content verbatim as the fallback, leaves `fact_check` absent, and
carries through the token usage the call reported. -/
theorem parse_failure_error_wrapper (model : String)
    (parse : String → Option FCJson) (q content : String) (usage : TokenUsage)
    (context_chunks : List ContextChunk) (hne : context_chunks ≠ [])
    (hbad : parse content = none ∨
      ∃ j, parse content = some j ∧
        classificationOfString (j.classification.getD "INSUFFICIENT") = none) :
    (generate_fact_check_response model (Except.ok (content, usage)) parse q
        context_chunks).status = "error" ∧
    (generate_fact_check_response model (Except.ok (content, usage)) parse q
        context_chunks).fact_check = none ∧
    (generate_fact_check_response model (Except.ok (content, usage)) parse q
        context_chunks).fallback_response = some content ∧
    (generate_fact_check_response model (Except.ok (content, usage)) parse q
        context_chunks).token_usage = usage := by
  have herr : ∃ msg, parseFactCheck parse context_chunks content =
      Except.error msg := by
    rcases hbad with h | ⟨j, hj, hcls⟩
    · exact ⟨"Expecting value", by simp [parseFactCheck, h]⟩
    · exact ⟨"invalid FactCheckClassification", by simp [parseFactCheck, hj, hcls]⟩
  obtain ⟨msg, hmsg⟩ := herr
  simp [generate_fact_check_response, hne, hmsg]

/-- Witness for `parse_failure_error_wrapper` at a concrete input. -/
theorem parse_failure_error_wrapper_witness :
    (generate_fact_check_response "gpt-3.5-turbo"
        (Except.ok ("not json", ⟨11, 22, 33⟩)) parseNone "q" chunks0).status =
      "error" ∧
    (generate_fact_check_response "gpt-3.5-turbo"
        (Except.ok ("not json", ⟨11, 22, 33⟩)) parseNone "q" chunks0).fact_check =
      none ∧
    (generate_fact_check_response "gpt-3.5-turbo"
        (Except.ok ("not json", ⟨11, 22, 33⟩)) parseNone "q"
        chunks0).fallback_response = some "not json" ∧
    (generate_fact_check_response "gpt-3.5-turbo"
        (Except.ok ("not json", ⟨11, 22, 33⟩)) parseNone "q"
        chunks0).token_usage = ⟨11, 22, 33⟩ :=
  parse_failure_error_wrapper "gpt-3.5-turbo" parseNone "q" "not json"
    ⟨11, 22, 33⟩ chunks0 (by decide) (Or.inl rfl)

/-! ## Claim C3 -/

/-- The rendered fallback entries depend only on the projected fields
(source file name, 200-character truncation of the text, confidence). -/
theorem renderEntries_congr :
    ∀ (n : Nat) (l1 l2 : List ContextChunk),
      l1.map fallbackProj = l2.map fallbackProj →
      (List.enumFrom n l1).map (fun p => renderFallbackEntry p.1 p.2) =
        (List.enumFrom n l2).map (fun p => renderFallbackEntry p.1 p.2) := by
  intro n l1
  induction l1 generalizing n with
  | nil =>
    intro l2 h
    have : l2 = [] := by
      rcases l2 with _ | ⟨c2, t2⟩
      · rfl
      · simp at h
    subst this
    rfl
  | cons c1 t1 ih =>
    intro l2 h
    rcases l2 with _ | ⟨c2, t2⟩
    · simp at h
    · simp only [List.map_cons, List.cons.injEq] at h
      obtain ⟨hc, ht⟩ := h
      simp only [fallbackProj, Prod.mk.injEq] at hc
      obtain ⟨h1, h2, h3⟩ := hc
      simp only [List.enumFrom, List.map_cons, List.cons.injEq]
      constructor
      · rw [renderFallbackEntry, renderFallbackEntry, h1, h2, h3]
      · exact ih (n + 1) t2 ht

/-- Claim C3: when the LLM provider call itself raises, the orchestrator
returns an error-status wrapper with all-zero token usage and the
deterministic chunk-based fallback string; that string is fully
determined by the first three retrieved chunks, each through its source
file name, its text truncated to 200 characters, and its confidence. -/
theorem provider_failure_fallback (model : String)
    (parse : String → Option FCJson) (q e : String)
    (context_chunks : List ContextChunk) (hne : context_chunks ≠ []) :
    generate_fact_check_response model (Except.error e) parse q context_chunks =
      { status := "error"
        fact_check := none
        model_used := model
        token_usage := ⟨0, 0, 0⟩
        error := some e
        fallback_response := some (create_fallback_response context_chunks) } ∧
    ∀ chunks2 : List ContextChunk, chunks2 ≠ [] →
      (context_chunks.take 3).map fallbackProj =
        (chunks2.take 3).map fallbackProj →
      create_fallback_response context_chunks =
        create_fallback_response chunks2 := by
  constructor
  · simp [generate_fact_check_response, hne]
  · intro chunks2 hne2 hproj
    rw [create_fallback_response, create_fallback_response, if_neg hne,
      if_neg hne2, renderEntries_congr 1 _ _ hproj]

/-- Witness for `provider_failure_fallback` at a concrete input. -/
theorem provider_failure_fallback_witness :
    generate_fact_check_response "gpt-3.5-turbo" (Except.error "rate limit")
        parseNone "q" chunks0 =
      { status := "error"
        fact_check := none
        model_used := "gpt-3.5-turbo"
        token_usage := ⟨0, 0, 0⟩
        error := some "rate limit"
        fallback_response := some (create_fallback_response chunks0) } :=
  (provider_failure_fallback "gpt-3.5-turbo" parseNone "q" "rate limit"
    chunks0 (by decide)).1

/-! ## Claim C4 -/

/-- Round-half-to-even returns the floor or the floor plus one. -/
theorem rhe_cases (q : ℚ) : rhe q = ⌊q⌋ ∨ rhe q = ⌊q⌋ + 1 := by
  unfold rhe
  split_ifs <;> simp

/-- Round-half-to-even is at least the floor. -/
theorem le_rhe (q : ℚ) : ⌊q⌋ ≤ rhe q := by
  rcases rhe_cases q with h | h <;> omega

/-- Round-half-to-even is monotone. -/
theorem rhe_mono {a b : ℚ} (h : a ≤ b) : rhe a ≤ rhe b := by
  have hfl : ⌊a⌋ ≤ ⌊b⌋ := Int.floor_le_floor h
  rcases lt_or_eq_of_le hfl with hlt | heq
  · have h1 : rhe a ≤ ⌊a⌋ + 1 := by rcases rhe_cases a with h' | h' <;> omega
    have h2 := le_rhe b
    omega
  · have hcast : (⌊a⌋ : ℚ) = (⌊b⌋ : ℚ) := by exact_mod_cast heq
    have hfab : a - (⌊a⌋ : ℚ) ≤ b - (⌊b⌋ : ℚ) := by
      rw [← hcast]; linarith
    unfold rhe
    split_ifs with h1 h2 h3 h4 h5 h6 h7 h8 h9 <;>
      first
        | omega
        | (exfalso; omega)
        | (exfalso; linarith)

/-- Round-half-to-even of a non-negative value is non-negative. -/
theorem rhe_nonneg {q : ℚ} (h : 0 ≤ q) : 0 ≤ rhe q :=
  le_trans (Int.floor_nonneg.mpr h) (le_rhe q)

/-- Round-half-to-even never exceeds an integer upper bound. -/
theorem rhe_le_of_le {q : ℚ} {m : ℤ} (h : q ≤ (m : ℚ)) : rhe q ≤ m := by
  have hfl : ⌊q⌋ ≤ m := by
    have := Int.floor_le_floor h
    rwa [Int.floor_intCast] at this
  have hflq : (⌊q⌋ : ℚ) ≤ q := Int.floor_le q
  unfold rhe
  split_ifs with h1 h2 h3
  · exact hfl
  · have hlt : (⌊q⌋ : ℚ) < (m : ℚ) := by linarith
    have : ⌊q⌋ < m := by exact_mod_cast hlt
    omega
  · exact hfl
  · have hge : (1 : ℚ) / 2 ≤ q - (⌊q⌋ : ℚ) := le_of_not_lt h1
    have hlt : (⌊q⌋ : ℚ) < (m : ℚ) := by linarith
    have : ⌊q⌋ < m := by exact_mod_cast hlt
    omega

/-- Claim C4: the confidence computed from a distance,
`round(max(0, 1 - d), 3)`, is antitone in the distance, and for every
non-negative distance it lies in the interval `[0, 1]`. -/
theorem confidence_antitone_and_bounded :
    (∀ d1 d2 : ℚ, d1 < d2 →
      confidence_of_distance d2 ≤ confidence_of_distance d1) ∧
    (∀ d : ℚ, 0 ≤ d →
      0 ≤ confidence_of_distance d ∧ confidence_of_distance d ≤ 1) := by
  constructor
  · intro d1 d2 hlt
    unfold confidence_of_distance round3
    have hmax : max 0 (1 - d2) ≤ max 0 (1 - d1) :=
      max_le_max le_rfl (by linarith)
    have hmul : max 0 (1 - d2) * 1000 ≤ max 0 (1 - d1) * 1000 := by
      nlinarith [hmax]
    have := rhe_mono hmul
    have hcast : ((rhe (max 0 (1 - d2) * 1000)) : ℚ) ≤
        ((rhe (max 0 (1 - d1) * 1000)) : ℚ) := by exact_mod_cast this
    linarith
  · intro d hd
    unfold confidence_of_distance round3
    constructor
    · have h0 : (0 : ℚ) ≤ max 0 (1 - d) * 1000 := by
        have := le_max_left (0 : ℚ) (1 - d)
        nlinarith
      have := rhe_nonneg h0
      have hcast : (0 : ℚ) ≤ ((rhe (max 0 (1 - d) * 1000)) : ℚ) := by
        exact_mod_cast this
      linarith
    · have h1 : max 0 (1 - d) * 1000 ≤ ((1000 : ℤ) : ℚ) := by
        have hm : max 0 (1 - d) ≤ 1 := max_le (by norm_num) (by linarith)
        push_cast
        nlinarith
      have := rhe_le_of_le h1
      have hcast : ((rhe (max 0 (1 - d) * 1000)) : ℚ) ≤ (1000 : ℚ) := by
        exact_mod_cast this
      linarith

/-- Witness for `confidence_antitone_and_bounded` at concrete inputs. -/
theorem confidence_antitone_and_bounded_witness :
    confidence_of_distance 1 ≤ confidence_of_distance (1 / 2) ∧
      0 ≤ confidence_of_distance (1 / 2) ∧ confidence_of_distance (1 / 2) ≤ 1 :=
  ⟨confidence_antitone_and_bounded.1 (1 / 2) 1 (by norm_num),
    confidence_antitone_and_bounded.2 (1 / 2) (by norm_num)⟩

/-! ## Claim C7 -/

/-- A pointwise-correct provider makes `generate_embeddings` return one
vector per input, in input order (bounded-length induction). -/
theorem generate_embeddings_map_aux {α : Type}
    (provider : List String → Except String (List α)) (f : String → α)
    (hprov : ∀ b, provider b = Except.ok (b.map f)) :
    ∀ (n : Nat) (texts : List String), texts.length ≤ n →
      generate_embeddings provider texts = Except.ok (texts.map f) := by
  intro n
  induction n with
  | zero =>
    intro texts hlen
    rcases texts with _ | ⟨t, ts⟩
    · rw [generate_embeddings]
      rfl
    · simp at hlen
  | succ n ih =>
    intro texts hlen
    rcases texts with _ | ⟨t, ts⟩
    · rw [generate_embeddings]
      rfl
    · rw [generate_embeddings, hprov, ih ((t :: ts).drop 100)
        (by simp only [List.length_drop]; simp at hlen ⊢; omega)]
      dsimp only
      rw [← List.map_append, List.take_append_drop]

/-- A length-preserving provider makes `generate_embeddings` return as
many vectors as inputs (bounded-length induction). -/
theorem generate_embeddings_length_aux {α : Type}
    (provider : List String → Except String (List α))
    (hlenp : ∀ b r, provider b = Except.ok r → r.length = b.length) :
    ∀ (n : Nat) (texts : List String) (vs : List α), texts.length ≤ n →
      generate_embeddings provider texts = Except.ok vs →
      vs.length = texts.length := by
  intro n
  induction n with
  | zero =>
    intro texts vs hlen h
    rcases texts with _ | ⟨t, ts⟩
    · rw [generate_embeddings] at h
      injection h with h'
      subst h'
      rfl
    · simp at hlen
  | succ n ih =>
    intro texts vs hlen h
    rcases texts with _ | ⟨t, ts⟩
    · rw [generate_embeddings] at h
      injection h with h'
      subst h'
      rfl
    · rw [generate_embeddings] at h
      rcases hp : provider ((t :: ts).take 100) with e | batch
      · rw [hp] at h; exact absurd h (by simp)
      · rw [hp] at h
        rcases hr : generate_embeddings provider ((t :: ts).drop 100) with e | rest
        · rw [hr] at h; exact absurd h (by simp)
        · rw [hr] at h
          injection h with h'
          subst h'
          have h1 := hlenp _ _ hp
          have h2 := ih ((t :: ts).drop 100) rest
            (by simp only [List.length_drop]; simp at hlen ⊢; omega) hr
          simp only [List.length_append, h1, h2, List.length_take,
            List.length_drop]
          omega

/-- A successful `generate_embeddings` call implies every batch call
succeeded (bounded-length induction). -/
theorem generate_embeddings_batches_aux {α : Type}
    (provider : List String → Except String (List α)) :
    ∀ (n : Nat) (texts : List String) (vs : List α), texts.length ≤ n →
      generate_embeddings provider texts = Except.ok vs →
      ∀ k, 100 * k < texts.length →
        ∃ r, provider ((texts.drop (100 * k)).take 100) = Except.ok r := by
  intro n
  induction n with
  | zero =>
    intro texts vs hlen h k hk
    omega
  | succ n ih =>
    intro texts vs hlen h k hk
    rcases texts with _ | ⟨t, ts⟩
    · simp at hk
    · rw [generate_embeddings] at h
      rcases hp : provider ((t :: ts).take 100) with e | batch
      · rw [hp] at h; exact absurd h (by simp)
      · rw [hp] at h
        rcases hr : generate_embeddings provider ((t :: ts).drop 100) with e | rest
        · rw [hr] at h; exact absurd h (by simp)
        · rcases k with _ | k
          · exact ⟨batch, by simpa using hp⟩
          · have hlt : 100 * k < ((t :: ts).drop 100).length := by
              simp only [List.length_drop]
              simp at hk ⊢
              omega
            obtain ⟨r, hresult⟩ := ih ((t :: ts).drop 100) rest
              (by simp only [List.length_drop]; simp at hlen ⊢; omega) hr k hlt
            refine ⟨r, ?_⟩
            rw [List.drop_drop] at hresult
            have harith : 100 + 100 * k = 100 * (k + 1) := by ring
            rwa [harith] at hresult

/-- Claim C7: `generate_embeddings` returns exactly one vector per input
text, in input order, walking the inputs in fixed batches of 100 without
reordering (a pointwise provider yields exactly the input-order map); a
successful call implies every batch call succeeded, and the only other
outcome is the propagated provider error — no partial result exists. -/
theorem generate_embeddings_aligned {α : Type}
    (provider : List String → Except String (List α)) (texts : List String) :
    (∀ f : String → α, (∀ b, provider b = Except.ok (b.map f)) →
      generate_embeddings provider texts = Except.ok (texts.map f)) ∧
    ((∀ b r, provider b = Except.ok r → r.length = b.length) →
      ∀ vs, generate_embeddings provider texts = Except.ok vs →
        vs.length = texts.length) ∧
    (∀ vs, generate_embeddings provider texts = Except.ok vs →
      ∀ k, 100 * k < texts.length →
        ∃ r, provider ((texts.drop (100 * k)).take 100) = Except.ok r) :=
  ⟨fun f hprov => generate_embeddings_map_aux provider f hprov texts.length texts le_rfl,
    fun hlenp vs h =>
      generate_embeddings_length_aux provider hlenp texts.length texts vs le_rfl h,
    fun vs h k hk =>
      generate_embeddings_batches_aux provider texts.length texts vs le_rfl h k hk⟩

/-- Witness for `generate_embeddings_aligned` at a concrete input. -/
theorem generate_embeddings_aligned_witness :
    generate_embeddings providerLen ["aa", "b"] = Except.ok [2, 1] := by
  have h := (generate_embeddings_aligned providerLen ["aa", "b"]).1
    String.length (fun b => rfl)
  simpa using h

/-! ## Claim C8 -/

/-- One dictionary step only adds entries backed by the chunk itself. -/
theorem sfuStep_sound (m : String → Option String) (c : ContextChunk)
    (k u : String) (h : sfuStep m c k = some u) :
    m k = some u ∨ (c.source_file = k ∧ c.document_url = some u) := by
  unfold sfuStep at h
  rcases hd : c.document_url with _ | u'
  · rw [hd] at h
    exact Or.inl h
  · rw [hd] at h
    dsimp only at h
    split_ifs at h with hcond
    · dsimp only at h
      by_cases hk : k = c.source_file
      · rw [if_pos hk] at h
        injection h with h'
        exact Or.inr ⟨hk.symm, by rw [h']⟩
      · rw [if_neg hk] at h
        exact Or.inl h
    · exact Or.inl h

/-- Every entry of the folded dictionary is backed by one of the folded
chunks (or was present initially). -/
theorem source_file_to_url_fold_sound :
    ∀ (chunks : List ContextChunk) (m0 : String → Option String)
      (k u : String),
      (chunks.foldl sfuStep m0) k = some u →
      m0 k = some u ∨ ∃ c ∈ chunks, c.source_file = k ∧ c.document_url = some u := by
  intro chunks
  induction chunks with
  | nil =>
    intro m0 k u h
    exact Or.inl h
  | cons c rest ih =>
    intro m0 k u h
    rw [List.foldl_cons] at h
    rcases ih (sfuStep m0 c) k u h with hstep | ⟨c', hc', hf, hu⟩
    · rcases sfuStep_sound m0 c k u hstep with hm | ⟨hf, hu⟩
      · exact Or.inl hm
      · exact Or.inr ⟨c, List.mem_cons_self c rest, hf, hu⟩
    · exact Or.inr ⟨c', List.mem_cons_of_mem c hc', hf, hu⟩

/-- A `document_url` produced by the lookup always comes from one of the
retrieved chunks. -/
theorem source_file_to_url_sound (chunks : List ContextChunk) (k u : String)
    (h : source_file_to_url chunks k = some u) :
    ∃ c ∈ chunks, c.source_file = k ∧ c.document_url = some u := by
  rcases source_file_to_url_fold_sound chunks (fun _ => none) k u h with hm | hex
  · exact absurd hm (by simp)
  · exact hex

/-- Claim C8 (counterexample): a successfully parsed verdict may cite a
file name that never appeared among the retrieved chunks — the code
preserves the model-declared entry instead of restricting it. -/
theorem sources_used_foreign_file_name :
    (generate_fact_check_response "gpt-3.5-turbo"
        (Except.ok ("raw", ⟨10, 20, 30⟩)) parseOther "q" chunks0).status =
      "success" ∧
    ((generate_fact_check_response "gpt-3.5-turbo"
        (Except.ok ("raw", ⟨10, 20, 30⟩)) parseOther "q"
        chunks0).fact_check.map
      (fun fc => fc.sources_used.map SourceReference.file_name)) =
        some ["other.txt"] ∧
    chunks0.map ContextChunk.source_file = ["doc.txt"] ∧
    "other.txt" ∉ chunks0.map ContextChunk.source_file := by
  refine ⟨?_, ?_, ?_, ?_⟩ <;> decide

/-- Claim C8 (amended): `sources_used` entries are preserved exactly as
declared by the model, even when the cited file name never appeared
among the retrieved chunks; what is guaranteed is that a populated
`document_url` is never fabricated — it is present only when some
retrieved chunk has that very `source_file` and that very
`document_url`. -/
theorem sources_used_url_not_fabricated (model : String)
    (llm : Except String (String × TokenUsage))
    (parse : String → Option FCJson) (q : String)
    (context_chunks : List ContextChunk) (fc : FactCheckResponse)
    (hfc : (generate_fact_check_response model llm parse q
        context_chunks).fact_check = some fc) :
    ∀ s ∈ fc.sources_used, ∀ u, s.document_url = some u →
      ∃ c ∈ context_chunks, c.source_file = s.file_name ∧
        c.document_url = some u := by
  by_cases hemp : context_chunks = []
  · unfold generate_fact_check_response at hfc
    rw [if_pos hemp] at hfc
    simp only [Option.some.injEq] at hfc
    subst hfc
    intro s hs
    simp [noContextFactCheck] at hs
  · unfold generate_fact_check_response at hfc
    rw [if_neg hemp] at hfc
    rcases llm with e | ⟨content, usage⟩
    · simp at hfc
    · dsimp only at hfc
      rcases hp : parseFactCheck parse context_chunks content with msg | fc'
      · rw [hp] at hfc
        simp at hfc
      · rw [hp] at hfc
        simp only [Option.some.injEq] at hfc
        subst hfc
        rw [parseFactCheck] at hp
        rcases hj : parse content with _ | j
        · rw [hj] at hp; exact absurd hp (by simp)
        · rw [hj] at hp
          dsimp only at hp
          rcases hcls : classificationOfString (j.classification.getD "INSUFFICIENT")
            with _ | cls
          · rw [hcls] at hp; exact absurd hp (by simp)
          · rw [hcls] at hp
            dsimp only at hp
            split_ifs at hp with hval
            · injection hp with hp'
              subst hp'
              intro s hs u hu
              simp only [List.mem_map] at hs
              obtain ⟨sj, hsj, rfl⟩ := hs
              rw [mkSourceReference] at hu ⊢
              exact source_file_to_url_sound context_chunks _ u hu

/-- Witness for `sources_used_url_not_fabricated` at a concrete input:
the populated URL of the cited source is traced back to the retrieved
chunk. -/
theorem sources_used_url_not_fabricated_witness :
    ∃ c ∈ chunks0, c.source_file = "doc.txt" ∧
      c.document_url = some "http://example.org/doc" := by
  have h := sources_used_url_not_fabricated "gpt-3.5-turbo"
    (Except.ok ("raw", ⟨10, 20, 30⟩)) parseDoc "q" chunks0
    { classification := FactCheckClassification.SUPPORTED
      analysis := "The context supports the statement."
      sources_used := [{ source_number := 1
                         file_name := "doc.txt"
                         document_url := some "http://example.org/doc" }]
      reasoning := "The retrieved document directly states the claim." }
    (by decide)
  exact h
    { source_number := 1
      file_name := "doc.txt"
      document_url := some "http://example.org/doc" }
    (by decide) "http://example.org/doc" (by decide)

/-! ## Claim C9 -/

/-- `f"{i:04d}"` has exactly four characters below 10000. -/
theorem pad4_length (i : Nat) (h : i < 10000) : (pad4 i).data.length = 4 := by
  rw [pad4, if_pos h]
  rfl

/-- Two chunk ids `stem_hash_index` with equal-width hash and index
fields can only coincide when the hash fields coincide. -/
theorem id_components_hash_eq (s1 s2 h1 h2 d1 d2 : String)
    (hh1 : h1.data.length = 8) (hh2 : h2.data.length = 8)
    (hd1 : d1.data.length = 4) (hd2 : d2.data.length = 4)
    (heq : s1 ++ "_" ++ h1 ++ "_" ++ d1 = s2 ++ "_" ++ h2 ++ "_" ++ d2) :
    h1 = h2 := by
  have hdata := congrArg String.data heq
  simp only [String.data_append, List.append_assoc] at hdata
  have hlen : (['_'] ++ (h1.data ++ (['_'] ++ d1.data))).length =
      (['_'] ++ (h2.data ++ (['_'] ++ d2.data))).length := by
    simp [hh1, hh2, hd1, hd2]
  obtain ⟨-, htail⟩ := List.append_inj' hdata hlen
  simp only [List.singleton_append, List.cons.injEq, true_and] at htail
  obtain ⟨hh, -⟩ := List.append_inj htail (by rw [hh1, hh2])
  exact String.ext hh

/-- The ids returned by `process_document` depend only on the file path
and on the number of chunks the extracted text produces. -/
theorem process_document_ids (md5hex : String → String) (p c u n : String) :
    (process_document md5hex p c u n).2.2 =
      (List.range (numChunksOf c)).map
        (fun i => pathStem p ++ "_" ++ String.mk ((md5hex p).data.take 8) ++
          "_" ++ pad4 i) := by
  by_cases hc : c = ""
  · rw [process_document, if_pos hc, numChunksOf, if_pos hc]
    rfl
  · rw [process_document, if_neg hc, numChunksOf, if_neg hc]

/-- Claim C9 (counterexample): two runs of `process_document` on the
same path do not return identical ids when the two contents chunk
differently — a one-character text yields one id, an 810-character text
yields two. -/
theorem ids_differ_when_chunk_count_differs :
    (process_document md5demo "/docs/a.txt" "b" "" "t").2.2 ≠
      (process_document md5demo "/docs/a.txt" content810 "" "t").2.2 := by
  decide

/-- Claim C9 (amended): the per-file hash is computed from the path
string only, never from the content — two runs on the same path return
identical id lists whenever their contents produce the same number of
chunks (the id at each common index never depends on the content); and
two paths whose truncated digests differ receive disjoint id sets
whenever both chunk counts stay below 10000 (the digest is an external
oracle, so digest collisions cannot be excluded in general). -/
theorem ids_path_hash_amended (md5hex : String → String)
    (p1 p2 c1 c2 u1 u2 n1 n2 : String) :
    (numChunksOf c1 = numChunksOf c2 →
      (process_document md5hex p1 c1 u1 n1).2.2 =
        (process_document md5hex p1 c2 u2 n2).2.2) ∧
    (String.mk ((md5hex p1).data.take 8) ≠ String.mk ((md5hex p2).data.take 8) →
      8 ≤ (md5hex p1).data.length → 8 ≤ (md5hex p2).data.length →
      numChunksOf c1 ≤ 10000 → numChunksOf c2 ≤ 10000 →
      ∀ s ∈ (process_document md5hex p1 c1 u1 n1).2.2,
        s ∉ (process_document md5hex p2 c2 u2 n2).2.2) := by
  constructor
  · intro hcount
    rw [process_document_ids, process_document_ids, hcount]
  · intro hne hl1 hl2 hc1 hc2 s hs1 hs2
    rw [process_document_ids] at hs1 hs2
    obtain ⟨i, hi, hsi⟩ := List.mem_map.mp hs1
    obtain ⟨j, hj, hsj⟩ := List.mem_map.mp hs2
    rw [List.mem_range] at hi hj
    have heq := hsi.trans hsj.symm
    refine hne (id_components_hash_eq (pathStem p1) (pathStem p2) _ _ _ _
      ?_ ?_ ?_ ?_ heq)
    · simp only [List.length_take]
      omega
    · simp only [List.length_take]
      omega
    · exact pad4_length i (by omega)
    · exact pad4_length j (by omega)

/-- Witness for `ids_path_hash_amended` at concrete inputs: equal chunk
counts give equal id lists even for different contents. -/
theorem ids_path_hash_amended_witness :
    (process_document md5demo "/docs/a.txt" "hello" "" "t1").2.2 =
      (process_document md5demo "/docs/a.txt" "world" "u" "t2").2.2 :=
  (ids_path_hash_amended md5demo "/docs/a.txt" "/docs/a.txt" "hello" "world"
    "" "u" "t1" "t2").1 (by decide)

/-! ## Claim C10 -/

/-- Claim C10: `query_similar_with_embeddings` never raises — for every
query vector and result count it returns a `QueryResult`; when the
backend query fails for any reason it returns the empty result shape
`{"documents": [[]], "metadatas": [[]], "distances": [[]]}`, and when
the backend succeeds its result is passed through unchanged, so a
backend failure is indistinguishable from a query with no matches. -/
theorem query_similar_swallows_backend_failure
    (backendQuery : List ℚ → Nat → Except String QueryResult)
    (query_embeddings : List ℚ) (n_results : Nat) :
    (∀ e, backendQuery query_embeddings n_results = Except.error e →
      query_similar_with_embeddings backendQuery query_embeddings n_results =
        emptyQueryResult) ∧
    (∀ r, backendQuery query_embeddings n_results = Except.ok r →
      query_similar_with_embeddings backendQuery query_embeddings n_results =
        r) := by
  constructor
  · intro e he
    rw [query_similar_with_embeddings, he]
  · intro r hr
    rw [query_similar_with_embeddings, hr]

/-- Witness for `query_similar_swallows_backend_failure` at a concrete
input: a raising backend yields the empty result shape. -/
theorem query_similar_swallows_backend_failure_witness :
    query_similar_with_embeddings backendRaise [1] 5 = emptyQueryResult :=
  (query_similar_swallows_backend_failure backendRaise [1] 5).1
    "chromadb unavailable" rfl
